import Mathlib

/-!
# Verification of the IMU dashboard's BLE hook

Shallow embedding of the packet decoder, per-IMU latest-sample state and
connect/disconnect lifecycle of `useBLE` (src/unnamed/part_000), and of the
data-array maintenance of `useIMUData` (src/src/hooks/useIMUData.ts).

JavaScript numbers are idealized as exact rationals; `NaN` is modelled
explicitly because the decoder branches on it.  Byte payloads are lists of
octets (`Fin 256`), matching `Uint8Array` elements.
-/

namespace ImuDash

/-- A JavaScript number as produced by `parseFloat`: either `NaN` or a finite
value, idealized as an exact rational (IEEE-754 rounding and the `Infinity`
literal are not modelled; no claim depends on them). -/
inductive JSVal where
  | nan : JSVal
  | num (q : ℚ) : JSVal
deriving DecidableEq

def digitVal (c : Char) : ℕ := c.toNat - '0'.toNat

def digitsToNat (ds : List Char) : ℕ :=
  ds.foldl (fun acc c => 10 * acc + digitVal c) 0

def fracToRat (ds : List Char) : ℚ :=
  (digitsToNat ds : ℚ) / (10 : ℚ) ^ ds.length

/-- JS `String.prototype.trim`: strip leading and trailing whitespace
(modelled on the string's characters, so that it is kernel-computable). -/
def trimChars (cs : List Char) : List Char :=
  ((cs.dropWhile Char.isWhitespace).reverse.dropWhile Char.isWhitespace).reverse

/-- JS `split(",")` on characters: split at every comma.  Adjacent commas
give empty pieces and the empty string gives one empty piece, as in JS. -/
def splitCommas : List Char → List (List Char)
  | [] => [[]]
  | c :: t =>
    if c = ',' then [] :: splitCommas t
    else
      match splitCommas t with
      | [] => [[c]]
      | h :: r => (c :: h) :: r

/-- Optional sign prefix: the sign factor and the remaining characters. -/
def signSplit (cs : List Char) : ℚ × List Char :=
  match cs with
  | '-' :: t => (-1, t)
  | '+' :: t => (1, t)
  | _ => (1, cs)

/-- Optional `.digits` fraction part: the fraction digits and the rest. -/
def fracSplit (cs : List Char) : List Char × List Char :=
  match cs with
  | '.' :: t => (t.takeWhile Char.isDigit, t.dropWhile Char.isDigit)
  | _ => ([], cs)

/-- Optional `(e|E)[sign]digits` exponent suffix; 0 when absent/malformed
(JS keeps the longest valid prefix, so `1e` parses as 1). -/
def expoOf (cs : List Char) : ℤ :=
  match cs with
  | c :: rest =>
    if c = 'e' ∨ c = 'E' then
      match rest with
      | '-' :: t =>
        let ds := t.takeWhile Char.isDigit
        if ds.isEmpty then 0 else -(digitsToNat ds : ℤ)
      | '+' :: t =>
        let ds := t.takeWhile Char.isDigit
        if ds.isEmpty then 0 else (digitsToNat ds : ℤ)
      | t =>
        let ds := t.takeWhile Char.isDigit
        if ds.isEmpty then 0 else (digitsToNat ds : ℤ)
    else 0
  | [] => 0

/-- Model of the JS builtin `parseFloat`: skip leading whitespace, optional
sign, then the longest prefix of the form `digits[.digits][(e|E)[sign]digits]`
or `.digits[...]`; `NaN` when no digit is found. -/
def parseFloat (s : List Char) : JSVal :=
  let cs := s.dropWhile Char.isWhitespace
  let sc := signSplit cs
  let ip := sc.2.takeWhile Char.isDigit
  let cs2 := sc.2.dropWhile Char.isDigit
  let fc := fracSplit cs2
  if ip.isEmpty && fc.1.isEmpty then .nan
  else .num (sc.1 * ((digitsToNat ip : ℚ) + fracToRat fc.1) * (10 : ℚ) ^ expoOf fc.2)

/-- Source line `text.trim().split(",").map(v => parseFloat(v))` of `onNotify`
(src/unnamed/part_000, lines 179-182), with the `trim`/`split` builtins
modelled at the character level. -/
def parseValues (text : String) : List JSVal :=
  (splitCommas (trimChars text.data)).map parseFloat

structure Vec3 where
  x : JSVal
  y : JSVal
  z : JSVal
deriving DecidableEq

structure Quat where
  x : JSVal
  y : JSVal
  z : JSVal
  w : JSVal
deriving DecidableEq

/-- Type `IMUSample` (src/unnamed/part_000, lines 49-55).  The decoder only pushes
a sample when `values[i]` is not `NaN`, so `imuId` is a plain rational. -/
structure IMUSample where
  imuId : ℚ
  accel : Vec3
  gyro : Vec3
  mag : Vec3
  quat : Quat
deriving DecidableEq

/-- Constant `const GROUP = 14; // id + 13 values` (src/unnamed/part_000, line 186). -/
def GROUP : ℕ := 14

/-- JS array read `values[i]`; out-of-range reads are `undefined`, which the
decoder never performs inside the guarded loop, so any default works. -/
def getV (vs : List JSVal) (i : ℕ) : JSVal := vs.getD i .nan

/-- The record built by `samples.push({...})` (src/unnamed/part_000,
lines 190-201): field `i` is the id, `i+1..i+3` accel x/y/z, `i+4..i+6` gyro,
`i+7..i+9` mag, `i+10..i+13` quat x/y/z/w. -/
def mkSample (vs : List JSVal) (i : ℕ) (q : ℚ) : IMUSample :=
  { imuId := q
    accel := ⟨getV vs (i+1), getV vs (i+2), getV vs (i+3)⟩
    gyro := ⟨getV vs (i+4), getV vs (i+5), getV vs (i+6)⟩
    mag := ⟨getV vs (i+7), getV vs (i+8), getV vs (i+9)⟩
    quat := ⟨getV vs (i+10), getV vs (i+11), getV vs (i+12), getV vs (i+13)⟩ }

/-- The decoding loop of `onNotify` (src/unnamed/part_000, lines 187-202):
`for (let i = 0; i + GROUP - 1 < values.length; i += GROUP)`, skipping a
group whose first field is `NaN` (`continue` still runs the `i += GROUP`
update). -/
def decodeFrom (vs : List JSVal) (i : ℕ) : List IMUSample :=
  if h : i + (GROUP - 1) < vs.length then
    match getV vs i with
    | .nan => decodeFrom vs (i + GROUP)
    | .num q => mkSample vs i q :: decodeFrom vs (i + GROUP)
  else []
termination_by vs.length - i
decreasing_by
  all_goals
    simp only [GROUP] at h ⊢
    omega

/-- The full `samples` list computed by `onNotify` from the parsed values. -/
def decodeValues (vs : List JSVal) : List IMUSample := decodeFrom vs 0

def hexDigitChar (n : ℕ) : Char :=
  "0123456789abcdef".data.getD n 'x'

/-- Rendering `b.toString(16).padStart(2, "0")` of one octet
(src/unnamed/part_000, line 217). -/
def hexByte (b : Fin 256) : String :=
  ⟨[hexDigitChar (b.val / 16), hexDigitChar (b.val % 16)]⟩

/-- Rendering `bytes.map(b => ...).join(" ")` (src/unnamed/part_000, lines 216-217). -/
def hexRender (bytes : List (Fin 256)) : String :=
  String.intercalate " " (bytes.map hexByte)

/-- The React state of `useBLE` touched by the claims (src/unnamed/part_000,
lines 67-81).  `latestByIMU` is the JS record keyed by `imuId`; `notifyCharRef`
holds the identity of the characteristic the `onNotify` listener is attached
to (the hook sets the ref and adds the listener together, and removes the
listener and nulls the ref together). -/
structure ConnState where
  connectMessage : Option String
  connectedDevice : Option ℕ
  validUUIDFound : Bool
  packetsReceived : ℕ
  lastPacketHex : Option String
  latestIMUData : Option IMUSample
  latestByIMU : ℚ → Option IMUSample
  notifyCharRef : Option ℕ

/-- The `setLatestByIMU` updater (src/unnamed/part_000, lines 207-213):
`for (const s of samples) next[s.imuId] = s`. -/
def applySamples (m : ℚ → Option IMUSample) (ss : List IMUSample) :
    ℚ → Option IMUSample :=
  ss.foldl (fun acc s => fun q => if q = s.imuId then some s else acc q) m

/-- Handler `onNotify` (src/unnamed/part_000, lines 172-220).  Here `td` models the browser
builtin `TextDecoder().decode` applied to the DataView's bytes; `dv = none`
models a null/absent `ch.value` (early return).  The first component is the
local `samples` list, returned so theorems can speak about it;
`samples.getLast?` is `samples[samples.length - 1]` on the nonempty branch. -/
def onNotifyCore (td : List (Fin 256) → String) (dv : Option (List (Fin 256)))
    (s : ConnState) : List IMUSample × ConnState :=
  match dv with
  | none => ([], s)
  | some bytes =>
    let text := td bytes
    let values := parseValues text
    let samples := decodeValues values
    let s1 :=
      if samples.length > 0 then
        { s with latestIMUData := samples.getLast?,
                 latestByIMU := applySamples s.latestByIMU samples }
      else s
    (samples,
     { s1 with lastPacketHex := some (hexRender bytes),
               packetsReceived := s1.packetsReceived + 1 })

/-- Target UUIDs (src/unnamed/part_000, lines 57-58). -/
def TARGET_SERVICE_UUID : String := "6e400001-b5a3-f393-e0a9-e50e24dcca9e"

def TARGET_CHAR_NOTIFY_UUID : String := "6e400003-b5a3-f393-e0a9-e50e24dcca9e"

/-- One observable call the hook makes into the Web Bluetooth API. -/
inductive GattEv where
  | gattConnect (device : ℕ)
  | getPrimaryService (uuid : String)
  | getCharacteristic (uuid : String)
  | startNotifications
  | addListener (char : ℕ)
  | removeListener (char : ℕ)
  | gattDisconnect (device : ℕ)
deriving DecidableEq

/-- Behaviour of the device/browser during one `connect` call: whether
`device.gatt` is defined, which awaited step (if any) rejects, and the
identity of the characteristic returned on success. -/
structure GattEnv where
  hasGatt : Bool
  connectThrows : Bool
  serviceThrows : Bool
  charThrows : Bool
  notifyThrows : Bool
  notifyCharId : ℕ

/-- Callback `disconnect` (src/unnamed/part_000, lines 225-236).  Here `cd` is the
`connectedDevice` value captured in the callback's closure when it was
created; React state reads inside the callback see that snapshot, not
updates made later during the same `connect` call. -/
def disconnect (cd : Option ℕ) (s : ConnState) : ConnState × List GattEv :=
  let removeEvs :=
    match s.notifyCharRef with
    | some c => [GattEv.removeListener c]
    | none => []
  let discEvs :=
    match cd with
    | some d => [GattEv.gattDisconnect d]
    | none => []
  ({ s with notifyCharRef := none,
            connectedDevice := none,
            validUUIDFound := false,
            connectMessage := some "Disconnected" },
   removeEvs ++ discEvs)

/-- Callback `connect` (src/unnamed/part_000, lines 238-272).  Returns the promise's
boolean result, the state after the call, and the trace of Web Bluetooth
calls made.  `cd` is the closure's `connectedDevice` that a `disconnect`
invoked from the catch block reads.  The catch block's message
(`e?.message ?? "Connection error"`) is modelled by its fallback text; no
claim depends on the message content. -/
def connect (env : GattEnv) (device : ℕ) (cd : Option ℕ) (s : ConnState) :
    Bool × ConnState × List GattEv :=
  let s0 := { s with connectMessage := some "Connecting…",
                     packetsReceived := 0,
                     lastPacketHex := none,
                     validUUIDFound := false,
                     latestIMUData := none,
                     latestByIMU := fun _ => none }
  if env.hasGatt = false then
    (false, { s0 with connectMessage := some "Failed to connect" }, [])
  else if env.connectThrows then
    let r := disconnect cd { s0 with connectMessage := some "Connection error" }
    (false, r.1, [GattEv.gattConnect device] ++ r.2)
  else
    let s1 := { s0 with connectedDevice := some device }
    let tr1 := [GattEv.gattConnect device,
                GattEv.getPrimaryService TARGET_SERVICE_UUID]
    if env.serviceThrows then
      let r := disconnect cd { s1 with connectMessage := some "Connection error" }
      (false, r.1, tr1 ++ r.2)
    else
      let tr2 := tr1 ++ [GattEv.getCharacteristic TARGET_CHAR_NOTIFY_UUID]
      if env.charThrows then
        let r := disconnect cd { s1 with connectMessage := some "Connection error" }
        (false, r.1, tr2 ++ r.2)
      else
        let tr3 := tr2 ++ [GattEv.startNotifications]
        if env.notifyThrows then
          let r := disconnect cd { s1 with connectMessage := some "Connection error" }
          (false, r.1, tr3 ++ r.2)
        else
          (true,
           { s1 with notifyCharRef := some env.notifyCharId,
                     validUUIDFound := true,
                     connectMessage := some "Receiving notifications…" },
           tr3 ++ [GattEv.addListener env.notifyCharId])

/-! ## `useIMUData` (src/src/hooks/useIMUData.ts)

The hook's numeric values come from `Math.random()`; the model takes the
random draws as inputs.  `timeRef` is idealized as an exact rational, so
`parseFloat(timeRef.current.toFixed(1))` is the value itself (the hook only
ever adds 0.1). -/

/-- Type `IMUData` (useIMUData.ts, lines 3-8). -/
structure IMUPoint where
  time : ℚ
  x : ℚ
  y : ℚ
  z : ℚ
deriving DecidableEq

/-- Type `IMUSensorData` (useIMUData.ts, lines 10-15). -/
structure SensorData where
  accelerometer : List IMUPoint
  gyroscope : List IMUPoint
  magnetometer : List IMUPoint
  rotation : ℚ × ℚ × ℚ
deriving DecidableEq

/-- Constant `MAX_DATA_POINTS = 50` (useIMUData.ts, line 23). -/
def MAX_DATA_POINTS : ℕ := 50

/-- The `IMUSensorData` every IMU is initialized and cleared to
(useIMUData.ts, lines 32-34 and 103-105). -/
def emptySensor : SensorData :=
  { accelerometer := [], gyroscope := [], magnetometer := [],
    rotation := (0, 0, 0) }

/-- The per-IMU `prevData` entry (useIMUData.ts, lines 38-42). -/
structure PrevIMU where
  accel : ℚ × ℚ × ℚ
  gyro : ℚ × ℚ × ℚ
  mag : ℚ × ℚ × ℚ
deriving DecidableEq

/-- Function `generateSmoothValue` (useIMUData.ts, lines 25-28) with the default
smoothness 0.1; `rand` is the `Math.random()` draw in [0,1). -/
def generateSmoothValue (prev range rand : ℚ) : ℚ :=
  let target := prev + (rand - 1/2) * range
  prev + (target - prev) * (1/10)

/-- JS `arr.slice(-n)`: the last `min n arr.length` elements. -/
def sliceLast (n : ℕ) (l : List IMUPoint) : List IMUPoint :=
  l.drop (l.length - n)

/-- The nine `Math.random()` draws one IMU consumes in one tick. -/
structure Draws where
  ax : ℚ
  ay : ℚ
  az : ℚ
  gx : ℚ
  gy : ℚ
  gz : ℚ
  mx : ℚ
  my : ℚ
  mz : ℚ

/-- Combined hook state: `imuData` (keyed 1..3, here `Fin 3`), the `prevData`
ref and the `timeRef` ref. -/
structure IMUState where
  imuData : Fin 3 → SensorData
  prevData : Fin 3 → PrevIMU
  timeRef : ℚ

/-- Initial state (useIMUData.ts, lines 31-42): empty arrays, zero rotation,
`prevData` at accel (0,0,9.8), gyro (0,0,0), mag (25,0,40), time 0. -/
def initIMUState : IMUState :=
  { imuData := fun _ => emptySensor,
    prevData := fun _ => ⟨(0, 0, 49/5), (0, 0, 0), (25, 0, 40)⟩,
    timeRef := 0 }

/-- The body of `selectedIMUs.forEach` for one IMU (useIMUData.ts,
lines 53-91): refresh `prevData`, advance rotation by gyro*0.01, append one
point per sensor and keep the last `MAX_DATA_POINTS`. -/
def tickIMU (d : Draws) (t : ℚ) (p : PrevIMU) (sd : SensorData) :
    PrevIMU × SensorData :=
  let accel := (generateSmoothValue p.accel.1 (1/2) d.ax,
                generateSmoothValue p.accel.2.1 (1/2) d.ay,
                generateSmoothValue p.accel.2.2 (3/10) d.az + 49/5)
  let gyro := (generateSmoothValue p.gyro.1 (1/5) d.gx,
               generateSmoothValue p.gyro.2.1 (1/5) d.gy,
               generateSmoothValue p.gyro.2.2 (1/5) d.gz)
  let mag := (generateSmoothValue p.mag.1 2 d.mx,
              generateSmoothValue p.mag.2.1 2 d.my,
              generateSmoothValue p.mag.2.2 2 d.mz)
  let rot := (sd.rotation.1 + gyro.1 * (1/100),
              sd.rotation.2.1 + gyro.2.1 * (1/100),
              sd.rotation.2.2 + gyro.2.2 * (1/100))
  (⟨accel, gyro, mag⟩,
   { accelerometer :=
       sliceLast MAX_DATA_POINTS (sd.accelerometer ++ [⟨t, accel.1, accel.2.1, accel.2.2⟩]),
     gyroscope :=
       sliceLast MAX_DATA_POINTS (sd.gyroscope ++ [⟨t, gyro.1, gyro.2.1, gyro.2.2⟩]),
     magnetometer :=
       sliceLast MAX_DATA_POINTS (sd.magnetometer ++ [⟨t, mag.1, mag.2.1, mag.2.2⟩]),
     rotation := rot })

/-- One interval callback run (useIMUData.ts, lines 45-96): no-op when paused
or no IMU is selected, otherwise advance time by 0.1 and update each selected
IMU in order. -/
def tick (isPaused : Bool) (selected : List (Fin 3)) (draws : Fin 3 → Draws)
    (s : IMUState) : IMUState :=
  if isPaused || selected.length = 0 then s
  else
    let t := s.timeRef + 1/10
    selected.foldl
      (fun acc i =>
        let r := tickIMU (draws i) t (acc.prevData i) (acc.imuData i)
        { acc with prevData := Function.update acc.prevData i r.1,
                   imuData := Function.update acc.imuData i r.2 })
      { s with timeRef := t }

/-- Function `clearData` (useIMUData.ts, lines 101-108): every IMU back to empty
arrays and zero rotation, `timeRef` back to 0 (`prevData` is untouched). -/
def clearData (s : IMUState) : IMUState :=
  { s with imuData := fun _ => emptySensor, timeRef := 0 }

/-- An externally triggered hook operation. -/
inductive IMUOp where
  | tick (isPaused : Bool) (selected : List (Fin 3)) (draws : Fin 3 → Draws)
  | clear

def applyOp (s : IMUState) : IMUOp → IMUState
  | .tick p sel d => tick p sel d s
  | .clear => clearData s

/-- The state after a sequence of ticks and clears from the initial state. -/
def runOps (ops : List IMUOp) : IMUState :=
  ops.foldl applyOp initIMUState

/-- All three data arrays of every IMU hold at most `MAX_DATA_POINTS`
points. -/
def boundedState (s : IMUState) : Prop :=
  ∀ i : Fin 3,
    (s.imuData i).accelerometer.length ≤ MAX_DATA_POINTS ∧
    (s.imuData i).gyroscope.length ≤ MAX_DATA_POINTS ∧
    (s.imuData i).magnetometer.length ≤ MAX_DATA_POINTS

/-- The sample one complete 14-field group contributes: none when its first
field is `NaN`, otherwise the record with the group's 13 values. -/
def sampleOfGroup (g : List JSVal) : Option IMUSample :=
  match getV g 0 with
  | .nan => none
  | .num q => some (mkSample g 0 q)

/-- Whether a trace event is a call to `gatt.connect()`. -/
def isGattConnect : GattEv → Bool
  | .gattConnect _ => true
  | _ => false

/-- A pristine hook state: all React state at its `useState` initial value. -/
def connState0 : ConnState :=
  { connectMessage := none, connectedDevice := none, validUUIDFound := false,
    packetsReceived := 0, lastPacketHex := none, latestIMUData := none,
    latestByIMU := fun _ => none, notifyCharRef := none }

/-- A state in which a previous session is still registered. -/
def connStateBusy : ConnState :=
  { connState0 with connectedDevice := some 7, notifyCharRef := some 3 }

/-- A device whose `gatt` property is undefined. -/
def envNoGatt : GattEnv :=
  { hasGatt := false, connectThrows := false, serviceThrows := false,
    charThrows := false, notifyThrows := false, notifyCharId := 0 }

/-- A device that connects but lacks the target service. -/
def envNoService : GattEnv :=
  { hasGatt := true, connectThrows := false, serviceThrows := true,
    charThrows := false, notifyThrows := false, notifyCharId := 0 }

/-- A fully cooperative device. -/
def envOk : GattEnv :=
  { hasGatt := true, connectThrows := false, serviceThrows := false,
    charThrows := false, notifyThrows := false, notifyCharId := 0 }

/-- A concrete one-sample notification text used by witnesses. -/
def sampleText : String := "2,1,0,0,0,0,0,0,0,0,0,0,0,0"

/-- The parsed field values of `sampleText`. -/
def sampleVals : List JSVal :=
  [JSVal.num 2, JSVal.num 1, JSVal.num 0, JSVal.num 0, JSVal.num 0,
   JSVal.num 0, JSVal.num 0, JSVal.num 0, JSVal.num 0, JSVal.num 0,
   JSVal.num 0, JSVal.num 0, JSVal.num 0, JSVal.num 0]

/-- The single sample decoded from `sampleText`. -/
def sample2 : IMUSample :=
  { imuId := 2,
    accel := ⟨JSVal.num 1, JSVal.num 0, JSVal.num 0⟩,
    gyro := ⟨JSVal.num 0, JSVal.num 0, JSVal.num 0⟩,
    mag := ⟨JSVal.num 0, JSVal.num 0, JSVal.num 0⟩,
    quat := ⟨JSVal.num 0, JSVal.num 0, JSVal.num 0, JSVal.num 0⟩ }

/-- A concrete malformed (NaN-id) group used by witnesses. -/
def nanGroup : List JSVal := JSVal.nan :: List.replicate 13 (JSVal.num 0)

/-- A concrete well-formed group used by witnesses. -/
def goodGroup : List JSVal := JSVal.num 5 :: List.replicate 13 (JSVal.num 1)

/-! ## Evaluation of `parseFloat` on plain digit strings -/

theorem not_whitespace_of_digit (c : Char) (h : c.isDigit = true) :
    c.isWhitespace = false := by
  cases hw : c.isWhitespace
  · rfl
  · exfalso
    simp only [Char.isWhitespace, Bool.or_eq_true, decide_eq_true_eq] at hw
    rcases hw with ((hw | hw) | hw) | hw <;> subst hw <;> exact absurd h (by decide)

theorem signSplit_of_ne (d : Char) (t : List Char) (h1 : d ≠ '-')
    (h2 : d ≠ '+') : signSplit (d :: t) = (1, d :: t) := by
  unfold signSplit
  split
  · rename_i t2 heq
    exact absurd (List.cons.inj heq).1 h1
  · rename_i t2 heq
    exact absurd (List.cons.inj heq).1 h2
  · rfl

theorem parseFloat_digits (d : Char) (t : List Char)
    (hall : (d :: t).all Char.isDigit = true) :
    parseFloat (d :: t) = .num (digitsToNat (d :: t)) := by
  have hd : d.isDigit = true := by
    have := List.all_eq_true.mp hall d (by simp)
    simpa using this
  have hw : List.dropWhile Char.isWhitespace (d :: t) = d :: t := by
    rw [List.dropWhile_cons, not_whitespace_of_digit d hd]
    simp
  have htake : List.takeWhile Char.isDigit (d :: t) = d :: t :=
    List.takeWhile_eq_self_iff.mpr (by
      intro c hc
      simpa using List.all_eq_true.mp hall c hc)
  have hdrop : List.dropWhile Char.isDigit (d :: t) = [] :=
    List.dropWhile_eq_nil_iff.mpr (by
      intro c hc
      simpa using List.all_eq_true.mp hall c hc)
  have hdm : d ≠ '-' := by
    intro hc
    subst hc
    exact absurd hd (by decide)
  have hdp : d ≠ '+' := by
    intro hc
    subst hc
    exact absurd hd (by decide)
  simp only [parseFloat, hw, signSplit_of_ne d t hdm hdp, htake, hdrop]
  rw [if_neg (by simp [fracSplit])]
  simp only [fracSplit, expoOf, fracToRat]
  rw [show digitsToNat [] = 0 from rfl]
  push_cast
  norm_num

/-! ## Decoder lemmas -/

theorem getV_append_right (p vs : List JSVal) (j : ℕ) :
    getV (p ++ vs) (p.length + j) = getV vs j := by
  rw [getV, getV, List.getD_append_right p vs _ _ (Nat.le_add_right _ _),
    Nat.add_sub_cancel_left]

theorem getV_append_left (p vs : List JSVal) (j : ℕ) (h : j < p.length) :
    getV (p ++ vs) j = getV p j := by
  rw [getV, getV, List.getD_append _ _ _ _ h]

theorem mkSample_shift (p vs : List JSVal) (j : ℕ) (q : ℚ) :
    mkSample (p ++ vs) (p.length + j) q = mkSample vs j q := by
  simp [mkSample, Nat.add_assoc, getV_append_right]

theorem decodeFrom_append (p vs : List JSVal) (i : ℕ) :
    decodeFrom (p ++ vs) (p.length + i) = decodeFrom vs i := by
  refine decodeFrom.induct vs
    (fun i => decodeFrom (p ++ vs) (p.length + i) = decodeFrom vs i) ?_ ?_ ?_ i
  · intro x hx hnan ih
    have hx2 : p.length + x + (GROUP - 1) < (p ++ vs).length := by
      simp only [List.length_append]; omega
    conv_lhs => rw [decodeFrom]
    conv_rhs => rw [decodeFrom]
    rw [dif_pos hx2, dif_pos hx, getV_append_right p vs x, hnan]
    show decodeFrom (p ++ vs) (p.length + x + GROUP) = decodeFrom vs (x + GROUP)
    rw [show p.length + x + GROUP = p.length + (x + GROUP) by omega]
    exact ih
  · intro x hx q hq ih
    have hx2 : p.length + x + (GROUP - 1) < (p ++ vs).length := by
      simp only [List.length_append]; omega
    conv_lhs => rw [decodeFrom]
    conv_rhs => rw [decodeFrom]
    rw [dif_pos hx2, dif_pos hx, getV_append_right p vs x, hq]
    show mkSample (p ++ vs) (p.length + x) q :: decodeFrom (p ++ vs) (p.length + x + GROUP) =
      mkSample vs x q :: decodeFrom vs (x + GROUP)
    rw [mkSample_shift, show p.length + x + GROUP = p.length + (x + GROUP) by omega, ih]
  · intro x hx
    have hx2 : ¬ p.length + x + (GROUP - 1) < (p ++ vs).length := by
      simp only [List.length_append]; omega
    conv_lhs => rw [decodeFrom]
    conv_rhs => rw [decodeFrom]
    rw [dif_neg hx2, dif_neg hx]

theorem decodeValues_short (vs : List JSVal) (h : vs.length < GROUP) :
    decodeValues vs = [] := by
  rw [decodeValues, decodeFrom]
  rw [dif_neg (by simp only [GROUP] at *; omega)]

theorem mkSample_group (g vs : List JSVal) (q : ℚ) (hg : GROUP ≤ g.length) :
    mkSample (g ++ vs) 0 q = mkSample g 0 q := by
  simp only [GROUP] at hg
  simp only [mkSample]
  rw [getV_append_left _ _ _ (by omega), getV_append_left _ _ _ (by omega),
      getV_append_left _ _ _ (by omega), getV_append_left _ _ _ (by omega),
      getV_append_left _ _ _ (by omega), getV_append_left _ _ _ (by omega),
      getV_append_left _ _ _ (by omega), getV_append_left _ _ _ (by omega),
      getV_append_left _ _ _ (by omega), getV_append_left _ _ _ (by omega),
      getV_append_left _ _ _ (by omega), getV_append_left _ _ _ (by omega),
      getV_append_left _ _ _ (by omega)]

theorem decodeValues_group (g vs : List JSVal) (hg : g.length = GROUP) :
    decodeValues (g ++ vs) = (sampleOfGroup g).toList ++ decodeValues vs := by
  have hshift : decodeFrom (g ++ vs) GROUP = decodeFrom vs 0 := by
    have h := decodeFrom_append g vs 0
    rwa [hg, Nat.add_zero] at h
  rw [decodeValues, decodeFrom]
  have hc : 0 + (GROUP - 1) < (g ++ vs).length := by
    simp only [List.length_append, hg, GROUP]; omega
  rw [dif_pos hc]
  have h0 : getV (g ++ vs) 0 = getV g 0 :=
    getV_append_left _ _ _ (by simp only [hg, GROUP]; omega)
  rw [h0]
  rcases hsg : getV g 0 with _ | q
  · simp only [Nat.zero_add, hshift, sampleOfGroup, hsg, Option.toList_none,
      List.nil_append, decodeValues]
  · simp only [Nat.zero_add, hshift, sampleOfGroup, hsg, Option.toList_some,
      List.singleton_append, decodeValues, List.cons.injEq, and_true]
    exact mkSample_group g vs q (le_of_eq hg.symm)

theorem decodeFrom_length_le (vs : List JSVal) (i : ℕ) :
    (decodeFrom vs i).length ≤ (vs.length - i) / GROUP := by
  refine decodeFrom.induct vs
    (fun i => (decodeFrom vs i).length ≤ (vs.length - i) / GROUP) ?_ ?_ ?_ i
  · intro x hx hnan ih
    rw [decodeFrom, dif_pos hx, hnan]
    show (decodeFrom vs (x + GROUP)).length ≤ _
    refine le_trans ih (Nat.div_le_div_right ?_)
    omega
  · intro x hx q hq ih
    rw [decodeFrom, dif_pos hx, hq]
    show (mkSample vs x q :: decodeFrom vs (x + GROUP)).length ≤ _
    simp only [List.length_cons]
    simp only [GROUP] at hx ih ⊢
    omega
  · intro x hx
    rw [decodeFrom, dif_neg hx]
    simp

theorem decodeValues_append_full : ∀ (n : ℕ) (vs extra : List JSVal),
    vs.length = n → GROUP ∣ n → extra.length < GROUP →
    decodeValues (vs ++ extra) = decodeValues vs := by
  intro n
  induction n using Nat.strong_induction_on with
  | _ n ih =>
    intro vs extra hn hdvd hlt
    by_cases h14 : vs.length < GROUP
    · have h0 : vs.length = 0 := by
        simp only [GROUP] at *; omega
      rw [List.length_eq_zero.mp h0]
      rw [List.nil_append, decodeValues_short extra hlt,
          decodeValues_short [] (by simp [GROUP])]
    · have hsplit := (List.take_append_drop GROUP vs).symm
      have hglen : (vs.take GROUP).length = GROUP := by
        simp only [List.length_take]; omega
      rw [hsplit, List.append_assoc, decodeValues_group _ _ hglen,
          decodeValues_group _ _ hglen]
      congr 1
      refine ih (vs.drop GROUP).length ?_ _ extra rfl ?_ hlt
      · simp only [List.length_drop, GROUP] at *; omega
      · simp only [List.length_drop, GROUP] at *; omega

/-! ## Per-IMU latest-sample map -/

theorem applySamples_concat (m : ℚ → Option IMUSample) (ts : List IMUSample)
    (s : IMUSample) :
    applySamples m (ts ++ [s]) =
      fun q => if q = s.imuId then some s else applySamples m ts q := by
  simp [applySamples, List.foldl_append]

theorem applySamples_apply (m : ℚ → Option IMUSample) (ss : List IMUSample)
    (id : ℚ) :
    applySamples m ss id =
      match (ss.filter (fun x => decide (x.imuId = id))).getLast? with
      | some s => some s
      | none => m id := by
  induction ss using List.reverseRecOn with
  | nil => rfl
  | append_singleton ts s ih =>
    rw [applySamples_concat, List.filter_append]
    by_cases hid : id = s.imuId
    · have hdec : decide (s.imuId = id) = true := by simp [hid]
      simp only [List.filter_cons, List.filter_nil, hdec, if_pos,
        List.getLast?_concat, if_true]
      rw [if_pos hid]
    · have hdec : decide (s.imuId = id) = false :=
        decide_eq_false (fun h => hid h.symm)
      simp only [List.filter_cons, List.filter_nil, hdec, Bool.false_eq_true,
        if_false, List.append_nil]
      rw [if_neg hid]
      exact ih

theorem applySamples_mem (m : ℚ → Option IMUSample) (ss : List IMUSample)
    (id : ℚ) (h : ∃ x ∈ ss, x.imuId = id) :
    applySamples m ss id =
      (ss.filter (fun x => decide (x.imuId = id))).getLast? := by
  rw [applySamples_apply]
  obtain ⟨x, hx, hxid⟩ := h
  have hmem : x ∈ ss.filter (fun x => decide (x.imuId = id)) :=
    List.mem_filter.mpr ⟨hx, by simp [hxid]⟩
  rcases hlast : (ss.filter (fun x => decide (x.imuId = id))).getLast? with _ | y
  · exact absurd (List.getLast?_eq_none.mp hlast) (List.ne_nil_of_mem hmem)
  · simp only [hlast]

theorem applySamples_not_mem (m : ℚ → Option IMUSample) (ss : List IMUSample)
    (id : ℚ) (h : ∀ x ∈ ss, x.imuId ≠ id) :
    applySamples m ss id = m id := by
  rw [applySamples_apply]
  have hnil : ss.filter (fun x => decide (x.imuId = id)) = [] :=
    List.filter_eq_nil.mpr (by intro x hx; simpa using h x hx)
  rw [hnil]
  rfl

/-! ## `useIMUData` invariant lemmas -/

theorem sliceLast_length_le (n : ℕ) (l : List IMUPoint) :
    (sliceLast n l).length ≤ n := by
  simp only [sliceLast, List.length_drop]
  omega

theorem boundedState_foldl (f : IMUState → Fin 3 → IMUState)
    (hf : ∀ acc i, boundedState acc → boundedState (f acc i))
    (l : List (Fin 3)) (acc : IMUState) (hacc : boundedState acc) :
    boundedState (l.foldl f acc) := by
  induction l generalizing acc with
  | nil => exact hacc
  | cons i t ih => exact ih _ (hf _ _ hacc)

theorem boundedState_update (acc : IMUState) (i : Fin 3) (pd : PrevIMU)
    (sd : SensorData) (hacc : boundedState acc)
    (hsd : sd.accelerometer.length ≤ MAX_DATA_POINTS ∧
      sd.gyroscope.length ≤ MAX_DATA_POINTS ∧
      sd.magnetometer.length ≤ MAX_DATA_POINTS) :
    boundedState { acc with prevData := Function.update acc.prevData i pd,
                            imuData := Function.update acc.imuData i sd } := by
  intro j
  by_cases hj : j = i
  · subst hj
    simpa [Function.update_same] using hsd
  · simpa [Function.update_noteq hj] using hacc j

theorem boundedState_tick (p : Bool) (sel : List (Fin 3)) (d : Fin 3 → Draws)
    (s : IMUState) (hs : boundedState s) : boundedState (tick p sel d s) := by
  rw [tick]
  split
  · exact hs
  · refine boundedState_foldl _ ?_ sel _ (fun i => hs i)
    intro acc i hacc
    exact boundedState_update acc i _ _ hacc
      ⟨sliceLast_length_le _ _, sliceLast_length_le _ _, sliceLast_length_le _ _⟩

theorem boundedState_clear (s : IMUState) : boundedState (clearData s) := by
  intro i
  simp [clearData, emptySensor]

theorem boundedState_runOps (ops : List IMUOp) : boundedState (runOps ops) := by
  rw [runOps]
  have aux : ∀ (l : List IMUOp) (s : IMUState), boundedState s →
      boundedState (l.foldl applyOp s) := by
    intro l
    induction l with
    | nil => exact fun s hs => hs
    | cons op t ih =>
      intro s hs
      refine ih _ ?_
      cases op with
      | tick p sel d => exact boundedState_tick p sel d s hs
      | clear => exact boundedState_clear s
  refine aux ops _ ?_
  intro i
  simp [initIMUState, emptySensor]

/-! ## Concrete evaluations used by witnesses -/

theorem parseValues_sampleText : parseValues sampleText = sampleVals := by
  have h : parseValues sampleText =
      [parseFloat ['2'], parseFloat ['1'], parseFloat ['0'], parseFloat ['0'],
       parseFloat ['0'], parseFloat ['0'], parseFloat ['0'], parseFloat ['0'],
       parseFloat ['0'], parseFloat ['0'], parseFloat ['0'], parseFloat ['0'],
       parseFloat ['0'], parseFloat ['0']] := rfl
  rw [h, parseFloat_digits '2' [] (by decide), parseFloat_digits '1' [] (by decide),
      parseFloat_digits '0' [] (by decide),
      show digitsToNat ['2'] = 2 from by decide,
      show digitsToNat ['1'] = 1 from by decide,
      show digitsToNat ['0'] = 0 from by decide]
  norm_num [sampleVals]

theorem decodeValues_sampleVals : decodeValues sampleVals = [sample2] := by
  rw [show sampleVals = sampleVals ++ [] from by simp,
      decodeValues_group sampleVals [] (by decide),
      decodeValues_short [] (by decide)]
  simp only [List.append_nil]
  decide

/-! ## `connect`/`disconnect` trace lemmas -/

theorem mem_disconnect_trace (cd : Option ℕ) (s : ConnState) (e : GattEv)
    (h : e ∈ (disconnect cd s).2) :
    (∃ c, e = GattEv.removeListener c) ∨ (∃ d, e = GattEv.gattDisconnect d) := by
  rcases hr : s.notifyCharRef with _ | c <;> rcases hc : cd with _ | d <;>
    simp only [disconnect, hr, hc, List.nil_append, List.append_nil,
      List.mem_singleton, List.mem_append, List.mem_cons,
      List.not_mem_nil, or_false] at h
  · exact Or.inr ⟨d, h⟩
  · exact Or.inl ⟨c, h⟩
  · rcases h with h | h
    · exact Or.inl ⟨c, h⟩
    · exact Or.inr ⟨d, h⟩

theorem disconnect_filter_connect (cd : Option ℕ) (s : ConnState) :
    (disconnect cd s).2.filter isGattConnect = [] := by
  refine List.filter_eq_nil.mpr ?_
  intro e he
  rcases mem_disconnect_trace cd s e he with ⟨c, rfl⟩ | ⟨d, rfl⟩ <;>
    simp [isGattConnect]

theorem disconnect_state (cd : Option ℕ) (s : ConnState) :
    (disconnect cd s).1.notifyCharRef = none ∧
    (disconnect cd s).1.connectedDevice = none ∧
    (disconnect cd s).1.validUUIDFound = false :=
  ⟨rfl, rfl, rfl⟩

theorem disconnect_trace_mem (cd : Option ℕ) (s : ConnState) :
    (∀ c, s.notifyCharRef = some c →
      GattEv.removeListener c ∈ (disconnect cd s).2) ∧
    (∀ d, cd = some d → GattEv.gattDisconnect d ∈ (disconnect cd s).2) := by
  constructor
  · intro c hc
    simp [disconnect, hc]
  · intro d hd
    rcases hr : s.notifyCharRef with _ | c <;> simp [disconnect, hd, hr]

/-! ## Claims -/

/-- C1: the packet decoder consumes the payload's comma-separated fields in
fixed-size records of `GROUP = 14` fields each (one IMU id followed by 13
values), advancing the parse index by 14 per record; a payload that parses
into `n` values yields at most `n / 14` samples. -/
theorem decode_records_of_14 (text : String) :
    GROUP = 14 ∧
    (decodeValues (parseValues text)).length ≤ (parseValues text).length / GROUP :=
  ⟨rfl, by simpa using decodeFrom_length_le (parseValues text) 0⟩

/-- C2: `onNotify` decodes the DataView as text, trims it, splits it on
commas and parses each piece with `parseFloat` (`parseValues`); within a
14-field group, field 0 is the sample's `imuId`, fields 1-3 its accel x/y/z,
fields 4-6 its gyro x/y/z, fields 7-9 its mag x/y/z and fields 10-13 its
quat x/y/z/w. -/
theorem onNotify_field_mapping (td : List (Fin 256) → String)
    (p : List (Fin 256)) (s : ConnState) (i0 : ℚ)
    (a1 a2 a3 g1 g2 g3 m1 m2 m3 q1 q2 q3 q4 : JSVal) (rest : List JSVal)
    (h : parseValues (td p) =
      [JSVal.num i0, a1, a2, a3, g1, g2, g3, m1, m2, m3, q1, q2, q3, q4] ++ rest) :
    (onNotifyCore td (some p) s).1 = decodeValues (parseValues (td p)) ∧
    (onNotifyCore td (some p) s).1 =
      { imuId := i0, accel := ⟨a1, a2, a3⟩, gyro := ⟨g1, g2, g3⟩,
        mag := ⟨m1, m2, m3⟩, quat := ⟨q1, q2, q3, q4⟩ } :: decodeValues rest := by
  refine ⟨rfl, ?_⟩
  show decodeValues (parseValues (td p)) = _
  rw [h, decodeValues_group _ _ (by rfl)]
  rfl

/-- C2 witness: a concrete one-record payload decodes to the expected
sample. -/
theorem onNotify_field_mapping_witness :
    parseValues sampleText = sampleVals ∧
    (onNotifyCore (fun _ => sampleText) (some []) connState0).1 = [sample2] := by
  refine ⟨parseValues_sampleText, ?_⟩
  have h := onNotify_field_mapping (fun _ => sampleText) [] connState0 2
    (JSVal.num 1) (JSVal.num 0) (JSVal.num 0) (JSVal.num 0) (JSVal.num 0)
    (JSVal.num 0) (JSVal.num 0) (JSVal.num 0) (JSVal.num 0) (JSVal.num 0)
    (JSVal.num 0) (JSVal.num 0) (JSVal.num 0) []
    (by rw [parseValues_sampleText]; decide)
  rw [h.2, decodeValues_short [] (by decide)]
  rfl

/-- C4: no parser state is carried across notifications — the decoded sample
list of a notification is a function of its bytes alone, identical whatever
state previous notifications left behind — and trailing fields short of a
complete 14-field record are discarded rather than buffered. -/
theorem onNotify_stateless :
    (∀ (td : List (Fin 256) → String) (p : List (Fin 256)) (s1 s2 : ConnState),
      (onNotifyCore td (some p) s1).1 = (onNotifyCore td (some p) s2).1) ∧
    (∀ (vs extra : List JSVal), GROUP ∣ vs.length → extra.length < GROUP →
      decodeValues (vs ++ extra) = decodeValues vs) :=
  ⟨fun _ _ _ _ => rfl,
   fun vs extra hdvd hlt => decodeValues_append_full vs.length vs extra rfl hdvd hlt⟩

/-- C4 witness: a one-field trailer after a complete record changes
nothing. -/
theorem onNotify_stateless_witness :
    GROUP ∣ sampleVals.length ∧ ([JSVal.num 9] : List JSVal).length < GROUP ∧
    decodeValues (sampleVals ++ [JSVal.num 9]) = decodeValues sampleVals :=
  ⟨by decide, by decide,
   onNotify_stateless.2 sampleVals [JSVal.num 9] (by decide) (by decide)⟩

/-- C8: a 14-field group whose first field does not parse as a number
contributes no sample and decoding continues with the next group at
offset +14, so well-formed groups after a malformed one are still
decoded. -/
theorem nan_group_skipped (g rest : List JSVal)
    (hlen : g.length = GROUP) (hnan : getV g 0 = JSVal.nan) :
    decodeValues (g ++ rest) = decodeValues rest := by
  rw [decodeValues_group g rest hlen]
  simp [sampleOfGroup, hnan]

/-- C8 witness: after a NaN-id group, the following good group still
decodes. -/
theorem nan_group_skipped_witness :
    nanGroup.length = GROUP ∧ getV nanGroup 0 = JSVal.nan ∧
    decodeValues (nanGroup ++ sampleVals) = decodeValues sampleVals ∧
    decodeValues sampleVals = [sample2] :=
  ⟨by decide, by decide,
   nan_group_skipped nanGroup sampleVals (by decide) (by decide),
   decodeValues_sampleVals⟩

/-- C3: after a notification whose decoded sample list is non-empty,
`latestByIMU` maps every id occurring in the list to the last sample with
that id, leaves entries for ids not occurring unchanged, and `latestIMUData`
is the list's final sample. -/
theorem onNotify_latest_state (td : List (Fin 256) → String)
    (p : List (Fin 256)) (s : ConnState)
    (hne : (onNotifyCore td (some p) s).1 ≠ []) :
    (onNotifyCore td (some p) s).2.latestIMUData =
      (onNotifyCore td (some p) s).1.getLast? ∧
    (∀ id : ℚ, (∃ x ∈ (onNotifyCore td (some p) s).1, x.imuId = id) →
      (onNotifyCore td (some p) s).2.latestByIMU id =
        ((onNotifyCore td (some p) s).1.filter
          (fun x => decide (x.imuId = id))).getLast?) ∧
    (∀ id : ℚ, (∀ x ∈ (onNotifyCore td (some p) s).1, x.imuId ≠ id) →
      (onNotifyCore td (some p) s).2.latestByIMU id = s.latestByIMU id) := by
  have hlen : (decodeValues (parseValues (td p))).length > 0 :=
    List.length_pos.mpr hne
  have hcore2 : (onNotifyCore td (some p) s).2 =
      { s with
        latestIMUData := (decodeValues (parseValues (td p))).getLast?,
        latestByIMU := applySamples s.latestByIMU (decodeValues (parseValues (td p))),
        lastPacketHex := some (hexRender p),
        packetsReceived := s.packetsReceived + 1 } := by
    simp only [onNotifyCore]
    rw [if_pos hlen]
  refine ⟨by rw [hcore2]; rfl, ?_, ?_⟩
  · intro id hid
    rw [hcore2]
    exact applySamples_mem s.latestByIMU _ id hid
  · intro id hid
    rw [hcore2]
    exact applySamples_not_mem s.latestByIMU _ id hid

/-- C3 witness: a concrete one-sample notification updates `latestIMUData`
to that sample. -/
theorem onNotify_latest_state_witness :
    (onNotifyCore (fun _ => sampleText) (some []) connState0).1 ≠ [] ∧
    (onNotifyCore (fun _ => sampleText) (some []) connState0).2.latestIMUData =
      some sample2 := by
  have h1 : (onNotifyCore (fun _ => sampleText) (some []) connState0).1 = [sample2] := by
    show decodeValues (parseValues sampleText) = [sample2]
    rw [parseValues_sampleText]
    exact decodeValues_sampleVals
  have hne : (onNotifyCore (fun _ => sampleText) (some []) connState0).1 ≠ [] := by
    rw [h1]
    simp
  have h := onNotify_latest_state (fun _ => sampleText) [] connState0 hne
  refine ⟨hne, ?_⟩
  rw [h.1, h1]
  rfl

/-- C9: every notification with a non-null DataView increments
`packetsReceived` by exactly one and sets `lastPacketHex` to the
space-separated, two-digit, lowercase-hex rendering of all payload bytes,
even when zero samples decode; in that zero-sample case `latestIMUData` and
`latestByIMU` are unchanged. -/
theorem notify_packet_counters (td : List (Fin 256) → String)
    (p : List (Fin 256)) (s : ConnState) :
    (onNotifyCore td (some p) s).2.packetsReceived = s.packetsReceived + 1 ∧
    (onNotifyCore td (some p) s).2.lastPacketHex =
      some (String.intercalate " " (p.map hexByte)) ∧
    (∀ b : Fin 256, (hexByte b).length = 2 ∧
      ∀ c ∈ (hexByte b).data, c ∈ "0123456789abcdef".data) ∧
    ((onNotifyCore td (some p) s).1 = [] →
      (onNotifyCore td (some p) s).2.latestIMUData = s.latestIMUData ∧
      (onNotifyCore td (some p) s).2.latestByIMU = s.latestByIMU) := by
  refine ⟨?_, ?_, ?_, ?_⟩
  · simp only [onNotifyCore]
    split <;> rfl
  · rfl
  · intro b
    constructor
    · rfl
    · have h16 : b.val / 16 < 16 := by omega
      have h16b : b.val % 16 < 16 := by omega
      have hmem : ∀ n < 16, hexDigitChar n ∈ "0123456789abcdef".data := by decide
      intro c hc
      have hc2 : c = hexDigitChar (b.val / 16) ∨ c = hexDigitChar (b.val % 16) := by
        have hdata : (hexByte b).data =
            [hexDigitChar (b.val / 16), hexDigitChar (b.val % 16)] := rfl
        rw [hdata] at hc
        simpa using hc
      rcases hc2 with rfl | rfl
      · exact hmem _ h16
      · exact hmem _ h16b
  · intro hzero
    have hlen : ¬ (decodeValues (parseValues (td p))).length > 0 := by
      have : (onNotifyCore td (some p) s).1 = decodeValues (parseValues (td p)) := rfl
      rw [this] at hzero
      simp [hzero]
    constructor <;>
      · simp only [onNotifyCore]
        rw [if_neg hlen]

/-- C9 witness: an unparsable one-byte payload still counts as a packet and
renders as hex while leaving the latest-sample state untouched. -/
theorem notify_packet_counters_witness :
    (onNotifyCore (fun _ => "x") (some [(65 : Fin 256)]) connState0).1 = [] ∧
    (onNotifyCore (fun _ => "x") (some [(65 : Fin 256)]) connState0).2.packetsReceived = 1 ∧
    (onNotifyCore (fun _ => "x") (some [(65 : Fin 256)]) connState0).2.lastPacketHex =
      some "41" ∧
    (onNotifyCore (fun _ => "x") (some [(65 : Fin 256)]) connState0).2.latestIMUData =
      none := by
  have hsam : (onNotifyCore (fun _ => "x") (some [(65 : Fin 256)]) connState0).1 = [] := by
    show decodeValues (parseValues "x") = []
    exact decodeValues_short _ (by decide)
  have h := notify_packet_counters (fun _ => "x") [(65 : Fin 256)] connState0
  refine ⟨hsam, ?_, ?_, ?_⟩
  · rw [h.1]
    rfl
  · rw [h.2.1]
    decide
  · rw [(h.2.2.2 hsam).1]
    rfl

/-- C5: for every device passed to `connect`, the hook requests exactly the
constant primary service UUID 6e400001-… and, on that service, the constant
notify characteristic UUID 6e400003-…; no other service or characteristic
UUID is ever requested. -/
theorem connect_targets_fixed_uuids (env : GattEnv) (device : ℕ)
    (cd : Option ℕ) (s : ConnState) :
    TARGET_SERVICE_UUID = "6e400001-b5a3-f393-e0a9-e50e24dcca9e" ∧
    TARGET_CHAR_NOTIFY_UUID = "6e400003-b5a3-f393-e0a9-e50e24dcca9e" ∧
    (∀ u, GattEv.getPrimaryService u ∈ (connect env device cd s).2.2 →
      u = TARGET_SERVICE_UUID) ∧
    (∀ u, GattEv.getCharacteristic u ∈ (connect env device cd s).2.2 →
      u = TARGET_CHAR_NOTIFY_UUID) ∧
    (env.hasGatt = true → env.connectThrows = false →
      GattEv.getPrimaryService TARGET_SERVICE_UUID ∈ (connect env device cd s).2.2) ∧
    (env.hasGatt = true → env.connectThrows = false → env.serviceThrows = false →
      GattEv.getCharacteristic TARGET_CHAR_NOTIFY_UUID ∈ (connect env device cd s).2.2) := by
  obtain ⟨hg, ct, st, cht, nt, cid⟩ := env
  rcases hr : s.notifyCharRef with _ | c0 <;> rcases hc : cd with _ | d0 <;>
    cases hg <;> cases ct <;> cases st <;> cases cht <;> cases nt <;>
      refine ⟨rfl, rfl, ?_, ?_, ?_, ?_⟩ <;>
        simp [connect, disconnect, hr, hc]

/-- C5 witness: on a cooperative device the two fixed UUIDs are actually
requested. -/
theorem connect_targets_fixed_uuids_witness :
    GattEv.getPrimaryService TARGET_SERVICE_UUID ∈
      (connect envOk 0 none connState0).2.2 ∧
    GattEv.getCharacteristic TARGET_CHAR_NOTIFY_UUID ∈
      (connect envOk 0 none connState0).2.2 := by
  have h := connect_targets_fixed_uuids envOk 0 none connState0
  exact ⟨h.2.2.2.2.1 rfl rfl, h.2.2.2.2.2 rfl rfl rfl⟩

/-- C6 counterexample: with `device.gatt` undefined and a previous session
still registered, `connect` returns false but performs no cleanup at all —
`connectedDevice` is still the old device, `notifyCharRef` still set, no
listener removal and no GATT disconnect happen. -/
theorem connect_failure_cleanup_counterexample :
    (connect envNoGatt 0 none connStateBusy).1 = false ∧
    (connect envNoGatt 0 none connStateBusy).2.1.connectedDevice = some 7 ∧
    (connect envNoGatt 0 none connStateBusy).2.1.notifyCharRef = some 3 ∧
    (connect envNoGatt 0 none connStateBusy).2.2 = [] :=
  ⟨rfl, rfl, rfl, rfl⟩

/-- C6 (amended): on every failing exit of `connect` `validUUIDFound` is
false.  When the GATT server was obtained and an awaited step threw,
`disconnect` runs: `connectedDevice` and `notifyCharRef` are nulled, the
listener is removed from the previously registered characteristic (if any),
and a GATT disconnect is issued on the closure's previous `connectedDevice`
(if any) — not on the device being connected.  On the server-absent path
`connect` returns false having applied only the entry resets:
`connectedDevice` and `notifyCharRef` keep their previous values and no
Web Bluetooth call is made. -/
theorem connect_failure_cleanup (env : GattEnv) (device : ℕ) (cd : Option ℕ)
    (s : ConnState) (hfail : (connect env device cd s).1 = false) :
    (connect env device cd s).2.1.validUUIDFound = false ∧
    (env.hasGatt = true →
      (connect env device cd s).2.1.connectedDevice = none ∧
      (connect env device cd s).2.1.notifyCharRef = none ∧
      (∀ c, s.notifyCharRef = some c →
        GattEv.removeListener c ∈ (connect env device cd s).2.2) ∧
      (∀ d, cd = some d →
        GattEv.gattDisconnect d ∈ (connect env device cd s).2.2)) ∧
    (env.hasGatt = false →
      (connect env device cd s).2.1.connectedDevice = s.connectedDevice ∧
      (connect env device cd s).2.1.notifyCharRef = s.notifyCharRef ∧
      (connect env device cd s).2.2 = []) := by
  obtain ⟨hg, ct, st, cht, nt, cid⟩ := env
  rcases hr : s.notifyCharRef with _ | c0 <;> rcases hc : cd with _ | d0 <;>
    cases hg <;> cases ct <;> cases st <;> cases cht <;> cases nt <;>
      refine ⟨?_, ?_, ?_⟩ <;>
        simp_all [connect, disconnect, hr, hc]

/-- C6 witness: a device without the target service gets disconnected via
the closure's previous `connectedDevice`. -/
theorem connect_failure_cleanup_witness :
    (connect envNoService 0 (some 7) connStateBusy).1 = false ∧
    (connect envNoService 0 (some 7) connStateBusy).2.1.connectedDevice = none ∧
    (connect envNoService 0 (some 7) connStateBusy).2.1.notifyCharRef = none ∧
    GattEv.gattDisconnect 7 ∈ (connect envNoService 0 (some 7) connStateBusy).2.2 := by
  have h := connect_failure_cleanup envNoService 0 (some 7) connStateBusy rfl
  exact ⟨rfl, (h.2.1 rfl).1, (h.2.1 rfl).2.1, (h.2.1 rfl).2.2.2 7 rfl⟩

/-- C7: `connect` performs no retry or backoff — each call invokes
`device.gatt.connect()` at most once (zero times when `gatt` is undefined),
and a failure returns false without a further connection attempt. -/
theorem connect_no_retry (env : GattEnv) (device : ℕ) (cd : Option ℕ)
    (s : ConnState) :
    ((connect env device cd s).2.2.filter isGattConnect).length ≤ 1 ∧
    (env.hasGatt = false →
      ((connect env device cd s).2.2.filter isGattConnect).length = 0) := by
  obtain ⟨hg, ct, st, cht, nt, cid⟩ := env
  cases hg <;> cases ct <;> cases st <;> cases cht <;> cases nt <;>
    refine ⟨?_, ?_⟩ <;>
      simp [connect, List.filter_append, disconnect_filter_connect, isGattConnect]

/-- C7 witness: with a cooperative device exactly one `gatt.connect()` call
appears in the trace. -/
theorem connect_no_retry_witness :
    ((connect envOk 0 none connState0).2.2.filter isGattConnect).length ≤ 1 ∧
    ((connect envNoGatt 0 none connState0).2.2.filter isGattConnect).length = 0 :=
  ⟨(connect_no_retry envOk 0 none connState0).1,
   (connect_no_retry envNoGatt 0 none connState0).2 rfl⟩

/-- C10: after any sequence of interval ticks and clears from the initial
state, each of the accelerometer, gyroscope and magnetometer arrays of every
IMU (ids 1-3) holds at most `MAX_DATA_POINTS = 50` points, and `clearData`
resets all three IMUs to empty arrays with rotation (0,0,0) and the time
counter to 0. -/
theorem imu_arrays_bounded (ops : List IMUOp) :
    MAX_DATA_POINTS = 50 ∧
    boundedState (runOps ops) ∧
    (∀ (s : IMUState) (i : Fin 3),
      (clearData s).imuData i = emptySensor ∧
      emptySensor.accelerometer = [] ∧ emptySensor.gyroscope = [] ∧
      emptySensor.magnetometer = [] ∧ emptySensor.rotation = (0, 0, 0)) ∧
    (∀ s : IMUState, (clearData s).timeRef = 0) :=
  ⟨rfl, boundedState_runOps ops, fun _ _ => ⟨rfl, rfl, rfl, rfl, rfl⟩, fun _ => rfl⟩

end ImuDash
